import Mathlib

/-!
Verification of the openskill sandbox orchestration core.

The definitions below are a shallow embedding of the TypeScript sources
`packages/openskill/src/services/SandboxService.ts`,
`packages/openskill/src/proxy-server.ts` and
`packages/openskill/src/server/index.ts`.  JavaScript machine arithmetic
(the 32-bit truncation performed by `<<`) is made explicit with `% 2^32`;
fallible operations are modelled with `Option`/`Except`; the external
container runtime is an oracle record, and the runtime calls a routine
issues are collected in an explicit trace list.
-/

namespace OpenSkill

/-! ### Port allocator — `SandboxService.getAvailablePort`

The source reduces over the characters of the skill name with
`acc => ((acc << 5) - acc) + char.charCodeAt(0)` starting from 0 and
returns `3000 + (Math.abs(hash) % 1000)`.  In JavaScript only the `<<`
operator truncates to a signed 32-bit integer; the subsequent `- acc`
and `+ charCode` are exact double-precision arithmetic (all values stay
far below 2^53, so doubles are exact here). -/

/-- Interpret an integer as a signed 32-bit value (JavaScript `ToInt32`). -/
def toInt32 (x : Int) : Int :=
  let r := x % 4294967296
  if r < 2147483648 then r else r - 4294967296

/-- One reducer step of `getAvailablePort`: `((acc << 5) - acc) + c`.
`acc << 5` is `ToInt32(ToInt32(acc) * 32)`, which equals `toInt32 (32 * acc)`;
the subtraction and addition are exact. -/
def hashStep (acc : Int) (c : Nat) : Int :=
  toInt32 (32 * acc) - acc + c

/-- The hash accumulated over the character codes of the skill name. -/
def codeHash (codes : List Nat) : Int :=
  codes.foldl hashStep 0

/-- Embeds `SandboxService.getAvailablePort`: `3000 + (Math.abs(hash) % 1000)`. -/
def getAvailablePort (codes : List Nat) : Nat :=
  3000 + (codeHash codes).natAbs % 1000

/-- UTF-16 code units of a skill name (ASCII in practice), as fed to
`charCodeAt`. -/
def charCodes (s : String) : List Nat :=
  s.data.map Char.toNat

/-- Modelled from the spec: the fully wrapped signed 32-bit rolling hash
`hash = toInt32 (hash * 31 + charCode)` that the specification describes,
truncating the whole accumulator to 32 bits at every step. -/
def specHashStep (h : Int) (c : Nat) : Int :=
  toInt32 (31 * h + c)

/-- Modelled from the spec: fold of `specHashStep` over the character codes. -/
def specHash (codes : List Nat) : Int :=
  codes.foldl specHashStep 0

/-- Modelled from the spec: the port the specification's algorithm yields. -/
def specPort (codes : List Nat) : Nat :=
  3000 + (specHash codes).natAbs % 1000

theorem toInt32_modEq (x : Int) : toInt32 x ≡ x [ZMOD 4294967296] := by
  show toInt32 x % 4294967296 = x % 4294967296
  simp only [toInt32]
  split <;> omega

theorem hashStep_modEq (acc h : Int) (c : Nat)
    (hmod : acc ≡ h [ZMOD 4294967296]) :
    hashStep acc c ≡ specHashStep h c [ZMOD 4294967296] := by
  unfold hashStep specHashStep
  have h1 : toInt32 (32 * acc) ≡ 32 * acc [ZMOD 4294967296] := toInt32_modEq _
  have h2 : toInt32 (31 * h + c) ≡ 31 * h + c [ZMOD 4294967296] := toInt32_modEq _
  have h3 : toInt32 (32 * acc) - acc + c ≡ 32 * acc - acc + c [ZMOD 4294967296] :=
    Int.ModEq.add_right _ (Int.ModEq.sub_right _ h1)
  have h4 : 32 * acc - acc + (c : Int) = 31 * acc + c := by ring
  have h5 : 31 * acc + (c : Int) ≡ 31 * h + c [ZMOD 4294967296] :=
    Int.ModEq.add_right _ (Int.ModEq.mul_left _ hmod)
  exact (h3.trans (h4 ▸ h5)).trans h2.symm

theorem codeHash_modEq_aux (codes : List Nat) :
    ∀ acc h : Int, acc ≡ h [ZMOD 4294967296] →
      codes.foldl hashStep acc ≡ codes.foldl specHashStep h [ZMOD 4294967296] := by
  induction codes with
  | nil => intro acc h hm; simpa using hm
  | cons c rest ih =>
      intro acc h hm
      simpa using ih _ _ (hashStep_modEq acc h c hm)

/-- C7 — the rolling hash of `getAvailablePort` truncates only the shift to
32 bits, and on `"aaaaaaa"` the resulting port differs from the port of the
fully wrapped signed 32-bit rolling hash the claim describes. -/
theorem getAvailablePort_cex :
    getAvailablePort (charCodes "aaaaaaa") = 3369 ∧
    specPort (charCodes "aaaaaaa") = 3927 ∧
    getAvailablePort (charCodes "aaaaaaa") ≠ specPort (charCodes "aaaaaaa") := by
  refine ⟨by decide, by decide, by decide⟩

/-- C7 (amended) — `getAvailablePort` is a pure function of the character
codes (determinism is definitional), always returns a port in
`[3000, 3999]`, and its hash accumulator agrees with the fully wrapped
signed 32-bit rolling hash `hash = toInt32 (31*hash + charCode)` modulo
`2^32`; only the left shift is truncated to 32 bits, so the accumulator can
leave the signed 32-bit range and the absolute value taken at the end can
differ from the fully wrapped variant's. -/
theorem getAvailablePort_spec (codes : List Nat) :
    3000 ≤ getAvailablePort codes ∧ getAvailablePort codes ≤ 3999 ∧
    codeHash codes ≡ specHash codes [ZMOD 4294967296] := by
  refine ⟨Nat.le_add_right _ _, ?_, codeHash_modEq_aux codes 0 0 (Int.ModEq.refl 0)⟩
  have h : (codeHash codes).natAbs % 1000 < 1000 := Nat.mod_lt _ (by norm_num)
  unfold getAvailablePort
  omega

/-- Witness for `getAvailablePort_spec` at a concrete input. -/
theorem getAvailablePort_spec_witness :
    3000 ≤ getAvailablePort (charCodes "canvas-design") ∧
    getAvailablePort (charCodes "canvas-design") ≤ 3999 ∧
    codeHash (charCodes "canvas-design") ≡
      specHash (charCodes "canvas-design") [ZMOD 4294967296] :=
  getAvailablePort_spec (charCodes "canvas-design")

/-! ### Container naming — `SandboxService.getContainerName` and the
`repoPrefix` computed in the constructor

The constructor computes
`repoPrefix = path.basename(cwd).toLowerCase().replace(/[^a-z0-9-]/g, '-')`.
`process.cwd()` never ends in a separator, so `basename` is the substring
after the last `/`.  `getContainerName` returns
`repoPrefix + '-' + customContainerName` when a custom (truthy, i.e.
non-empty) name was provided, else
`repoPrefix + '-openskill-skill-' + skillName`. -/

/-- The `replace(/[^a-z0-9-]/g, '-')` character map. -/
def sanitizeChar (c : Char) : Char :=
  if ('a' ≤ c ∧ c ≤ 'z') ∨ ('0' ≤ c ∧ c ≤ '9') ∨ c = '-' then c else '-'

/-- Embeds `path.basename` for paths without trailing separators (the only inputs
the constructor produces): the characters after the last `/`. -/
def basenameOf (p : String) : String :=
  ⟨(p.data.reverse.takeWhile (fun c => c ≠ '/')).reverse⟩

/-- The repo prefix computed in the `SandboxService` constructor. -/
def repoScopeOf (cwd : String) : String :=
  ⟨((basenameOf cwd).data.map Char.toLower).map sanitizeChar⟩

/-- Embeds `SandboxService.getContainerName`, with the JavaScript truthiness test
`if (this.customContainerName)` made explicit: an absent or empty custom
name selects the skill-derived branch. -/
def getContainerName (repoScope : String) (custom : Option String)
    (skillName : String) : String :=
  match custom with
  | some c =>
      if c = "" then repoScope ++ "-openskill-skill-" ++ skillName
      else repoScope ++ "-" ++ c
  | none => repoScope ++ "-openskill-skill-" ++ skillName

/-- C9 — two distinct workspaces whose directory basenames coincide receive
identical environment names for the same skill: the derived names do
collide across different invoking workspaces. -/
theorem containerName_workspace_collision_cex :
    ("/home/a/proj" : String) ≠ "/home/b/proj" ∧
    getContainerName (repoScopeOf "/home/a/proj") none "canvas-design" =
      getContainerName (repoScopeOf "/home/b/proj") none "canvas-design" := by
  exact ⟨by decide, by decide⟩

/-- C9 (amended) — environment names are a deterministic function of
`(repoScope, customNameOverride?, skillIdentity)`, and two workspaces whose
sanitized basenames differ never collide for the same custom override and
skill identity; workspaces whose basenames sanitize to the same string (for
example equal basenames under different parent directories) yield identical
names. -/
theorem containerName_no_collision_of_prefix_ne (cwd1 cwd2 : String)
    (custom : Option String) (skillName : String)
    (h : repoScopeOf cwd1 ≠ repoScopeOf cwd2) :
    getContainerName (repoScopeOf cwd1) custom skillName ≠
      getContainerName (repoScopeOf cwd2) custom skillName := by
  have key : ∀ t p q : String, p ++ t = q ++ t → p = q := by
    intro t p q hpq
    have hd : p.data ++ t.data = q.data ++ t.data := by
      have h1 : (p ++ t).data = p.data ++ t.data := rfl
      have h2 : (q ++ t).data = q.data ++ t.data := rfl
      rw [← h1, ← h2, hpq]
    have h3 := List.append_cancel_right hd
    cases p; cases q; exact congrArg String.mk h3
  intro hcontra
  apply h
  unfold getContainerName at hcontra
  cases custom with
  | none =>
      exact key _ _ _ (by
        simpa [String.append_assoc] using hcontra)
  | some c =>
      by_cases hc : c = ""
      · simp only [hc, if_true] at hcontra
        exact key _ _ _ (by simpa [String.append_assoc] using hcontra)
      · simp only [hc, if_false] at hcontra
        exact key _ _ _ (by simpa [String.append_assoc] using hcontra)

/-- Witness for `containerName_no_collision_of_prefix_ne`. -/
theorem containerName_no_collision_witness :
    getContainerName (repoScopeOf "/home/x/alpha") none "s" ≠
      getContainerName (repoScopeOf "/home/x/beta") none "s" :=
  containerName_no_collision_of_prefix_ne "/home/x/alpha" "/home/x/beta"
    none "s" (by decide)

/-! ### Health-check polling — `SandboxService.waitForContainer`

The source loops `for (let i = 0; i < maxAttempts; i++)`, fetching
`/health` once per iteration and returning on the first `response.ok`,
sleeping one second between attempts (wall-clock time is not modelled),
and throws `'Container failed to become healthy'` after the loop.  The
oracle `healthy i` states whether the i-th probe succeeds.  The source
returns `void` on success; the embedding records the index of the
successful attempt (the loop variable at the `return`) so that
first-success can be stated. -/

def waitLoop (healthy : Nat → Bool) : Nat → Nat → Except String Nat
  | _, 0 => .error "Container failed to become healthy"
  | i, n + 1 => if healthy i then .ok i else waitLoop healthy (i + 1) n

/-- Embeds `SandboxService.waitForContainer` with its configured attempt count
(default 30 at the call sites). -/
def waitForContainer (healthy : Nat → Bool) (maxAttempts : Nat) :
    Except String Nat :=
  waitLoop healthy 0 maxAttempts

/-! ### Container lifecycle — `SandboxService.startContainer`

The external Docker runtime is an oracle record; each routine returns its
result together with the trace of runtime calls it issued, in source
order.  The `-v` mount and image arguments of `docker run`, and the log
messages, do not influence control flow and are elided from the trace
constructors. -/

/-- One runtime (Docker CLI) invocation, in the order the source issues
them.  `healthWait` stands for the whole health-polling loop, whose
internal structure is `waitForContainer`. -/
inductive RuntimeCall where
  | psRunning (name : String)
  | portQuery (name : String)
  | imageCheck
  | pull
  | build
  | psAll (name : String)
  | startExisting (name : String)
  | runNew (name : String) (port : Nat)
  | healthWait (port : Nat)
  deriving DecidableEq, Repr

/-- Oracle for the external container runtime observed by one
`startContainer` call. `pullOk` is `pullImage`'s boolean (it catches its
own errors); `build` models `buildImage`, whose failure carries the
underlying error message. -/
structure Runtime where
  running : String → Bool
  boundPort : String → Option Nat
  imageExists : Bool
  pullOk : Bool
  build : Except String Unit
  existsAny : String → Bool
  startExisting : String → Except String Unit
  runNew : Except String Unit
  healthy : Nat → Bool

/-- The service configuration fixed by the `SandboxService` constructor
(the repo-scope computed from `cwd`, and the optional custom container
name). -/
structure Config where
  repoScope : String
  custom : Option String

inductive ContainerStatus where
  | starting
  | running
  | stopped
  | error
  deriving DecidableEq, Repr

structure ContainerInfo where
  containerId : String
  port : Nat
  status : ContainerStatus
  url : String
  deriving DecidableEq, Repr

/-- The image-resolution block of `startContainer`: if `isImageBuilt` is
false, pull; if the pull fails, build, and a build failure propagates as
`'Failed to build Docker image: …'` (from `buildImage`).  The
default-image and custom-image branches of the source are identical up to
log messages. -/
def resolveImage (rt : Runtime) : Except String Unit × List RuntimeCall :=
  if rt.imageExists then (.ok (), [.imageCheck])
  else if rt.pullOk then (.ok (), [.imageCheck, .pull])
  else
    match rt.build with
    | .ok () => (.ok (), [.imageCheck, .pull, .build])
    | .error e =>
        (.error ("Failed to build Docker image: " ++ e),
         [.imageCheck, .pull, .build])

/-- Tail of `startContainer` after a container was started: wait for
health, then return the record. -/
def finishStart (rt : Runtime) (name : String) (port : Nat)
    (trace : List RuntimeCall) :
    Except String ContainerInfo × List RuntimeCall :=
  match waitForContainer rt.healthy 30 with
  | .ok _ =>
      (.ok { containerId := name, port := port, status := .running,
             url := "http://localhost:" ++ toString port },
       trace ++ [.healthWait port])
  | .error e => (.error e, trace ++ [.healthWait port])

/-- Body of the `try` block of `SandboxService.startContainer`. -/
def startContainerBody (rt : Runtime) (cfg : Config) (skillName : String) :
    Except String ContainerInfo × List RuntimeCall :=
  let name := getContainerName cfg.repoScope cfg.custom skillName
  if rt.running name then
    -- fast path: read back the actually bound port; `actualPort ||
    -- await this.getAvailablePort(skillName)` falls back to the computed
    -- hash port only when the readback yields nothing
    let hostPort := (rt.boundPort name).getD (getAvailablePort (charCodes skillName))
    (.ok { containerId := name, port := hostPort, status := .running,
           url := "http://localhost:" ++ toString hostPort },
     [.psRunning name, .portQuery name])
  else
    let hostPort := getAvailablePort (charCodes skillName)
    match resolveImage rt with
    | (.error e, tr) => (.error e, .psRunning name :: tr)
    | (.ok (), tr) =>
        if rt.existsAny name then
          match rt.startExisting name with
          | .error e =>
              (.error e,
               .psRunning name :: tr ++ [.psAll name, .startExisting name])
          | .ok () =>
              let actualPort := (rt.boundPort name).getD hostPort
              finishStart rt name actualPort
                (.psRunning name :: tr ++
                  [.psAll name, .startExisting name, .portQuery name])
        else
          match rt.runNew with
          | .error e =>
              (.error e,
               .psRunning name :: tr ++ [.psAll name, .runNew name hostPort])
          | .ok () =>
              finishStart rt name hostPort
                (.psRunning name :: tr ++ [.psAll name, .runNew name hostPort])

/-- Embeds `SandboxService.startContainer`: the body wrapped in the `catch` that
re-throws as `'Failed to start container for skill …'`. -/
def startContainer (rt : Runtime) (cfg : Config) (skillName : String) :
    Except String ContainerInfo × List RuntimeCall :=
  match startContainerBody rt cfg skillName with
  | (.ok info, tr) => (.ok info, tr)
  | (.error e, tr) =>
      (.error ("Failed to start container for skill " ++ skillName ++ ": " ++ e),
       tr)

/-! ### Execution server — `proxy-server.ts` -/

/-- What the spawned `sh -c command` child process did: the interleaved
stdout/stderr chunks (`true` marks stderr), and either an exit
(`code`/`signal` as delivered to the `exit` handler, with `killed` set
when the server's timeout timer fired and terminated it) or a spawn
error. -/
inductive ProcOutcome where
  | exited (code : Option Int) (signal : Option String) (killed : Bool)
  | spawnFailed (msg : String)
  deriving DecidableEq, Repr

structure ProcRun where
  chunks : List (Bool × String)
  outcome : ProcOutcome
  deriving DecidableEq, Repr

/-- Embeds `command.split(' ')[0]`. -/
def firstWord (cmd : String) : String :=
  ⟨cmd.data.takeWhile (fun c => c ≠ ' ')⟩

/-- JavaScript `String.prototype.includes` on character lists. -/
def hasSub (pat : List Char) : List Char → Bool
  | [] => pat.isEmpty
  | c :: rest => if pat.isPrefixOf (c :: rest) then true else hasSub pat rest

def includesStr (s pat : String) : Bool :=
  hasSub pat.data s.data

/-- The spawn-error message mapping shared by both endpoints. -/
def spawnErrorText (errMsg cmd : String) : String :=
  if includesStr errMsg "ENOENT" then
    "Command not found or executable missing: " ++ firstWord cmd
  else if includesStr errMsg "EACCES" then
    "Permission denied executing: " ++ firstWord cmd
  else "Failed to execute command: " ++ errMsg

/-- Concatenated stdout chunks, in arrival order. -/
def stdoutOf (run : ProcRun) : String :=
  String.join ((run.chunks.filter (fun p => p.1 = false)).map Prod.snd)

/-- Concatenated stderr chunks, in arrival order. -/
def stderrOf (run : ProcRun) : String :=
  String.join ((run.chunks.filter (fun p => p.1 = true)).map Prod.snd)

/-- The JSON body of a `POST /bash/exec` response, as the execution
client sees it after `response.json()`: every field optional. -/
structure ExecResponse where
  success : Option Bool
  stdout : Option String
  stderr : Option String
  exitCode : Option Int
  error : Option String
  killed : Option Bool
  timeout : Option Bool
  message : Option String
  deriving DecidableEq, Repr

/-- The 400 response for a missing (or empty, via JS truthiness)
`command`. -/
def missingCommandResponse : ExecResponse :=
  { success := some false, stdout := none, stderr := none, exitCode := none,
    error := some "Command is required", killed := none, timeout := none,
    message := none }

/-- Embeds `app.post('/bash/exec')`: buffered execution.  `success` is
`code === 0 && !killed`; `exitCode` is the raw `code` (null when the
process was terminated by a signal); `timeout` mirrors `killed`. -/
def bashExec (cmd : Option String) (run : ProcRun) : ExecResponse :=
  match cmd with
  | none => missingCommandResponse
  | some c =>
      if c = "" then missingCommandResponse
      else
        match run.outcome with
        | .exited code _ killed =>
            { success := some (decide (code = some 0) && !killed)
              stdout := some (stdoutOf run)
              stderr := some (stderrOf run)
              exitCode := code
              error := none
              killed := some killed
              timeout := some killed
              message :=
                some (if killed then
                        "Command execution timed out and was terminated"
                      else if code = some 0 then
                        "Command completed successfully"
                      else "Command failed with exit code: " ++
                        (match code with
                         | some n => toString n
                         | none => "null")) }
        | .spawnFailed msg =>
            { success := some false, stdout := none, stderr := none,
              exitCode := some 1, error := some (spawnErrorText msg c),
              killed := none, timeout := none, message := none }

/-- Events of the `POST /bash` newline-delimited JSON stream. -/
inductive StreamEvent where
  | start (command : String)
  | stdoutChunk (data : String)
  | stderrChunk (data : String)
  | timeoutEv
  | exit (exitCode : Option Int) (signal : Option String) (killed : Bool)
  | errorEv (message : String)
  deriving DecidableEq, Repr

/-- Embeds `app.post('/bash')`: the event sequence written for one request.  A
missing or empty command writes a single `error` event.  Otherwise the
`start` event is written, then the chunk events; when the timer killed
the process a `timeout` event precedes the final `exit` event (in the
source the timer interleaves with chunk callbacks, which only moves the
`timeout` event earlier among the non-terminal events); a spawn failure
writes a final `error` event instead. -/
def streamBash (cmd : Option String) (run : ProcRun) : List StreamEvent :=
  match cmd with
  | none => [.errorEv "Command is required"]
  | some c =>
      if c = "" then [.errorEv "Command is required"]
      else
        .start c ::
          (run.chunks.map (fun p =>
            if p.1 then StreamEvent.stderrChunk p.2
            else StreamEvent.stdoutChunk p.2) ++
           match run.outcome with
           | .exited code signal killed =>
               (if killed then [StreamEvent.timeoutEv] else []) ++
                 [StreamEvent.exit code signal killed]
           | .spawnFailed msg => [StreamEvent.errorEv (spawnErrorText msg c)])

/-- A terminal event of the stream: `exit` or `error`. -/
def isTerminal : StreamEvent → Bool
  | .exit _ _ _ => true
  | .errorEv _ => true
  | _ => false

/-! ### Execution client — `SandboxService.executeCommand` -/

/-- The normalized result shape (`SandboxExecuteResult`). -/
structure SandboxExecuteResult where
  success : Bool
  stdout : String
  stderr : String
  exitCode : Int
  error : Option String
  timeout : Option Bool
  deriving DecidableEq, Repr

/-- The result synthesized by `executeCommand`'s `catch` block. -/
def synthesizedFailure (e : String) : SandboxExecuteResult :=
  { success := false, stdout := "", stderr := "", exitCode := 1,
    error := some ("Failed to execute command: " ++ e), timeout := none }

/-- Embeds `SandboxService.executeCommand`: ensure the container is running, do
the HTTP exchange (`exchange` abstracts `fetch` + `response.json()`,
erring on transport or protocol failure), and normalize the optional
fields with `?? false`, `|| ''`, `?? 1`.  Any error — from
`startContainer` or from the exchange — is caught and synthesized into a
result; the function is total and never throws. -/
def executeCommand (rt : Runtime) (cfg : Config) (skillName : String)
    (exchange : ContainerInfo → Except String ExecResponse) :
    SandboxExecuteResult :=
  match (startContainer rt cfg skillName).1 with
  | .error e => synthesizedFailure e
  | .ok info =>
      match exchange info with
      | .error e => synthesizedFailure e
      | .ok r =>
          { success := r.success.getD false
            stdout := r.stdout.getD ""
            stderr := r.stderr.getD ""
            exitCode := r.exitCode.getD 1
            error := r.error
            timeout := r.timeout }

/-! ### Session tracking — `server/index.ts` -/

/-- Insertion into the `startedContainers` `Set` (insertion order, no
duplicates). -/
def trackAdd (tracker : List String) (s : String) : List String :=
  if s ∈ tracker then tracker else tracker ++ [s]

/-- Result of one tool call as the handler sees it (`isError` marks a
failed execution; `UseSkillTool.execute` never throws). -/
structure ToolResult where
  isError : Bool
  text : String
  deriving DecidableEq, Repr

/-- The use-skill branch of the `CallToolRequestSchema` handler: after
`useSkillTool.execute` returns — whatever its `isError` flag — a truthy
(non-empty) `skillName` is added to the tracker. -/
def handleUseSkill (tracker : List String) (skillName : String)
    (result : ToolResult) : List String × ToolResult :=
  (if skillName = "" then tracker else trackAdd tracker skillName, result)

inductive CleanupCall where
  | stop (skillName : String)
  | remove (skillName : String)
  deriving DecidableEq, Repr

/-- The `cleanup` closure of `createServer`: returns early with no
runtime calls when the tracker is empty, otherwise issues
`stopContainer` + `removeContainer` per tracked identity.  The tracker is
not cleared. -/
def cleanup (tracker : List String) : List CleanupCall × List String :=
  if tracker = [] then ([], tracker)
  else (tracker.flatMap (fun s => [.stop s, .remove s]), tracker)

/-- C10 — with a (non-empty) custom container-name override configured, the
derived environment name does not depend on the skill identity: every skill
maps to the same container name. -/
theorem containerName_custom_ignores_skill (repoScope c s t : String)
    (hc : c ≠ "") :
    getContainerName repoScope (some c) s =
      getContainerName repoScope (some c) t := by
  simp [getContainerName, hc]

/-- Witness for `containerName_custom_ignores_skill`. -/
theorem containerName_custom_ignores_skill_witness :
    getContainerName "proj" (some "shared") "canvas-design" =
      getContainerName "proj" (some "shared") "slack-gif-creator" :=
  containerName_custom_ignores_skill "proj" "shared" "canvas-design"
    "slack-gif-creator" (by decide)

/-! ### Concrete runtimes used by witnesses and counterexamples -/

/-- A runtime in which the environment for every name is already running
and bound to host port 3100, so `startContainer` takes the fast path. -/
def rtFast : Runtime :=
  { running := fun _ => true
    boundPort := fun _ => some 3100
    imageExists := true
    pullOk := true
    build := .ok ()
    existsAny := fun _ => true
    startExisting := fun _ => .ok ()
    runNew := .ok ()
    healthy := fun _ => true }

/-- A runtime with no environment, no local image, and both pull and
build failing: environment establishment is impossible. -/
def rtBroken : Runtime :=
  { running := fun _ => false
    boundPort := fun _ => none
    imageExists := false
    pullOk := false
    build := .error "docker build exited with code 1"
    existsAny := fun _ => false
    startExisting := fun _ => .error "cannot start"
    runNew := .error "cannot run"
    healthy := fun _ => false }

def cfgTest : Config := { repoScope := "proj", custom := none }

/-! ### C8 — health-check polling -/

theorem waitLoop_eq_find (healthy : Nat → Bool) :
    ∀ (n i : Nat), waitLoop healthy i n =
      match (List.range' i n).find? healthy with
      | some j => .ok j
      | none => .error "Container failed to become healthy" := by
  intro n
  induction n with
  | zero => intro i; rfl
  | succ n ih =>
      intro i
      rw [List.range'_succ]
      by_cases h : healthy i
      · simp [waitLoop, h, List.find?_cons_of_pos]
      · simp only [waitLoop, h, if_false, Bool.false_eq_true,
          List.find?_cons_of_neg _ h]
        exact ih (i + 1)

/-- C8 — `waitForContainer` is a total function that probes the health
endpoint at most `maxAttempts` times (the source's one-second sleeps are
wall-clock behaviour outside the model): it returns at the first probe
that succeeds, and after exhausting exactly the configured attempt count
it fails with the health-check-timeout error
`'Container failed to become healthy'` — the characterization below as
`find?` over `range maxAttempts` says exactly this, and totality rules
out an unbounded loop. -/
theorem waitForContainer_spec (healthy : Nat → Bool) (maxAttempts : Nat) :
    waitForContainer healthy maxAttempts =
      match (List.range maxAttempts).find? healthy with
      | some i => .ok i
      | none => .error "Container failed to become healthy" := by
  rw [waitForContainer, List.range_eq_range']
  exact waitLoop_eq_find healthy maxAttempts 0

/-! ### C5 — fast path of `startContainer` -/

/-- C5 — when the runtime reports a running environment with the derived
name, `startContainer` only queries `docker ps` and reads back the bound
port: it performs no image-resolution work (no image check, pull or
build appears in the trace), uses the read-back port `p` rather than the
computed hash port, and returns `status = running` immediately. -/
theorem startContainer_fast_path (rt : Runtime) (cfg : Config)
    (skillName : String) (p : Nat)
    (hrun : rt.running (getContainerName cfg.repoScope cfg.custom skillName) = true)
    (hport : rt.boundPort (getContainerName cfg.repoScope cfg.custom skillName) = some p) :
    startContainer rt cfg skillName =
      (.ok { containerId := getContainerName cfg.repoScope cfg.custom skillName,
             port := p, status := .running,
             url := "http://localhost:" ++ toString p },
       [.psRunning (getContainerName cfg.repoScope cfg.custom skillName),
        .portQuery (getContainerName cfg.repoScope cfg.custom skillName)]) ∧
    RuntimeCall.imageCheck ∉ (startContainer rt cfg skillName).2 ∧
    RuntimeCall.pull ∉ (startContainer rt cfg skillName).2 ∧
    RuntimeCall.build ∉ (startContainer rt cfg skillName).2 := by
  have hbody : startContainer rt cfg skillName =
      (.ok { containerId := getContainerName cfg.repoScope cfg.custom skillName,
             port := p, status := .running,
             url := "http://localhost:" ++ toString p },
       [.psRunning (getContainerName cfg.repoScope cfg.custom skillName),
        .portQuery (getContainerName cfg.repoScope cfg.custom skillName)]) := by
    simp only [startContainer, startContainerBody, hrun, if_true, hport,
      Option.getD_some]
  refine ⟨hbody, ?_, ?_, ?_⟩ <;> rw [hbody] <;> simp

/-- Witness for `startContainer_fast_path` on the concrete runtime
`rtFast`. -/
theorem startContainer_fast_path_witness :
    (startContainer rtFast cfgTest "canvas-design" =
      (.ok { containerId := getContainerName cfgTest.repoScope cfgTest.custom "canvas-design",
             port := 3100, status := .running,
             url := "http://localhost:" ++ toString 3100 },
       [.psRunning (getContainerName cfgTest.repoScope cfgTest.custom "canvas-design"),
        .portQuery (getContainerName cfgTest.repoScope cfgTest.custom "canvas-design")]) ∧
    RuntimeCall.imageCheck ∉ (startContainer rtFast cfgTest "canvas-design").2 ∧
    RuntimeCall.pull ∉ (startContainer rtFast cfgTest "canvas-design").2 ∧
    RuntimeCall.build ∉ (startContainer rtFast cfgTest "canvas-design").2) :=
  startContainer_fast_path rtFast cfgTest "canvas-design" 3100 rfl rfl

/-! ### C2 — transport failures synthesized, never thrown -/

/-- C2 — `executeCommand` is a total function into
`SandboxExecuteResult` (it has no error channel: nothing escapes its
boundary), and on any transport or protocol failure of the exchange —
server unreachable, malformed response, any error thrown while talking
to the endpoint — it returns the synthesized result with
`success = false`, `exitCode = 1` and the descriptive message
`'Failed to execute command: …'`. -/
theorem executeCommand_transport_failure (rt : Runtime) (cfg : Config)
    (skillName e : String) (info : ContainerInfo)
    (exchange : ContainerInfo → Except String ExecResponse)
    (hok : (startContainer rt cfg skillName).1 = .ok info)
    (hfail : exchange info = .error e) :
    executeCommand rt cfg skillName exchange =
      { success := false, stdout := "", stderr := "", exitCode := 1,
        error := some ("Failed to execute command: " ++ e),
        timeout := none } := by
  unfold executeCommand
  rw [hok]
  dsimp only
  rw [hfail]
  rfl

/-- Witness for `executeCommand_transport_failure`: a concrete reachable
environment whose exchange fails with `ECONNREFUSED`. -/
theorem executeCommand_transport_failure_witness :
    executeCommand rtFast cfgTest "canvas-design"
        (fun _ => .error "fetch failed: ECONNREFUSED") =
      { success := false, stdout := "", stderr := "", exitCode := 1,
        error := some ("Failed to execute command: " ++ "fetch failed: ECONNREFUSED"),
        timeout := none } :=
  executeCommand_transport_failure rtFast cfgTest "canvas-design"
    "fetch failed: ECONNREFUSED"
    { containerId := getContainerName cfgTest.repoScope cfgTest.custom "canvas-design",
      port := 3100, status := .running, url := "http://localhost:" ++ toString 3100 }
    (fun _ => .error "fetch failed: ECONNREFUSED") rfl rfl

/-! ### C6 — establishment failures -/

/-- C6 — counterexample: with no local image and both pull and build
failing, the establishment failure is indeed thrown up through
`startContainer` (first conjunct), but the calling operation
`executeCommand` catches it and returns it as ordinary
`SandboxExecuteResult` data with `success = false`, `exitCode = 1` —
exactly the representation used for post-establishment failures — rather
than aborting with an error. -/
theorem executeCommand_establishment_failure_cex :
    (startContainer rtBroken cfgTest "canvas-design").1 =
      .error ("Failed to start container for skill canvas-design: " ++
        "Failed to build Docker image: docker build exited with code 1") ∧
    executeCommand rtBroken cfgTest "canvas-design" (fun _ => .error "unreached") =
      { success := false, stdout := "", stderr := "", exitCode := 1,
        error := some ("Failed to execute command: " ++
          ("Failed to start container for skill canvas-design: " ++
            "Failed to build Docker image: docker build exited with code 1")),
        timeout := none } := by
  exact ⟨rfl, rfl⟩

/-- C6 (amended) — establishment failures are thrown as errors up
through `ensure` (`startContainer` returns an error), but `executeCommand`
catches every such error and synthesizes the same
`success = false, exitCode = 1` `ExecutionResult` data it uses for
post-establishment failures; the two failure classes are not
distinguished at the caller's boundary. -/
theorem executeCommand_establishment_failure (rt : Runtime) (cfg : Config)
    (skillName e : String)
    (exchange : ContainerInfo → Except String ExecResponse)
    (herr : (startContainer rt cfg skillName).1 = .error e) :
    executeCommand rt cfg skillName exchange =
      { success := false, stdout := "", stderr := "", exitCode := 1,
        error := some ("Failed to execute command: " ++ e),
        timeout := none } := by
  unfold executeCommand
  rw [herr]
  rfl

/-- Witness for `executeCommand_establishment_failure` on `rtBroken`. -/
theorem executeCommand_establishment_failure_witness :
    executeCommand rtBroken cfgTest "canvas-design" (fun _ => .error "unreached") =
      { success := false, stdout := "", stderr := "", exitCode := 1,
        error := some ("Failed to execute command: " ++
          ("Failed to start container for skill canvas-design: " ++
            "Failed to build Docker image: docker build exited with code 1")),
        timeout := none } :=
  executeCommand_establishment_failure rtBroken cfgTest "canvas-design"
    ("Failed to start container for skill canvas-design: " ++
      "Failed to build Docker image: docker build exited with code 1")
    (fun _ => .error "unreached") rfl

/-! ### C1 — success iff exit status 0 and no timeout -/

theorem executeCommand_ok_exchange (r : ExecResponse) :
    executeCommand rtFast cfgTest "canvas-design" (fun _ => .ok r) =
      { success := r.success.getD false, stdout := r.stdout.getD "",
        stderr := r.stderr.getD "", exitCode := r.exitCode.getD 1,
        error := r.error, timeout := r.timeout } := rfl

/-- C1 — for the buffered endpoint and for the execution client composed
with it, `success = true` iff the spawned process exited with status 0
and was not killed by the timeout timer; and for the response the server
produces for `exit 0` (exit status 0, no timeout, no output) the client
returns `success = true`, `exitCode = 0` and a false timed-out flag. -/
theorem executionResult_success_iff (c : String) (hc : c ≠ "")
    (chunks : List (Bool × String)) (code : Option Int)
    (signal : Option String) (killed : Bool) :
    ((bashExec (some c) ⟨chunks, .exited code signal killed⟩).success = some true ↔
      (code = some 0 ∧ killed = false)) ∧
    ((executeCommand rtFast cfgTest "canvas-design"
        (fun _ => .ok (bashExec (some c) ⟨chunks, .exited code signal killed⟩))).success = true ↔
      (code = some 0 ∧ killed = false)) ∧
    executeCommand rtFast cfgTest "canvas-design"
        (fun _ => .ok (bashExec (some "exit 0") ⟨[], .exited (some 0) none false⟩)) =
      { success := true, stdout := "", stderr := "", exitCode := 0,
        error := none, timeout := some false } := by
  have hresp :
      (bashExec (some c) ⟨chunks, .exited code signal killed⟩).success =
        some (decide (code = some 0) && !killed) := by
    simp [bashExec, hc]
  refine ⟨?_, ?_, rfl⟩
  · rw [hresp]
    cases killed <;> simp
  · rw [executeCommand_ok_exchange, hresp]
    cases killed <;> simp

/-- Witness for `executionResult_success_iff` at `exit 0`. -/
theorem executionResult_success_iff_witness :
    ((bashExec (some "exit 0") ⟨[], .exited (some 0) none false⟩).success = some true ↔
      ((some 0 : Option Int) = some 0 ∧ false = false)) ∧
    ((executeCommand rtFast cfgTest "canvas-design"
        (fun _ => .ok (bashExec (some "exit 0") ⟨[], .exited (some 0) none false⟩))).success = true ↔
      ((some 0 : Option Int) = some 0 ∧ false = false)) ∧
    executeCommand rtFast cfgTest "canvas-design"
        (fun _ => .ok (bashExec (some "exit 0") ⟨[], .exited (some 0) none false⟩)) =
      { success := true, stdout := "", stderr := "", exitCode := 0,
        error := none, timeout := some false } :=
  executionResult_success_iff "exit 0" (by decide) [] (some 0) none false

/-! ### C4 — streaming event ordering -/

theorem getLast?_cons_append_singleton (a x : StreamEvent)
    (l₁ l₂ : List StreamEvent) :
    (a :: (l₁ ++ (l₂ ++ [x]))).getLast? = some x := by
  rw [show a :: (l₁ ++ (l₂ ++ [x])) = (a :: (l₁ ++ l₂)) ++ [x] by simp]
  exact List.getLast?_concat _

/-- C4 — counterexample: a streaming request whose body carries no
command emits the single event sequence `[error "Command is required"]`,
whose first event is not `start`; the ordering claim fails for such a
request. -/
theorem streamBash_missing_command_cex :
    streamBash none ⟨[], .exited (some 0) none false⟩ =
      [.errorEv "Command is required"] ∧
    ∀ c, (streamBash none ⟨[], .exited (some 0) none false⟩).head? ≠
      some (.start c) := by
  refine ⟨rfl, ?_⟩
  intro c h
  exact StreamEvent.noConfusion (Option.some.inj h)

/-- C4 (amended) — for every streaming request that does carry a
(non-empty) command, the emitted sequence begins with `start`, ends with
a terminal event (`exit` or `error`), contains exactly one terminal
event, and when the process ran to an exit the final event is `exit`
carrying exactly the `code` that the buffered endpoint reports as
`exitCode` for the same process run.  A request without a command emits
only `[error "Command is required"]`. -/
theorem streamBash_ordering (c : String) (hc : c ≠ "") (run : ProcRun) :
    (streamBash (some c) run).head? = some (.start c) ∧
    (∃ t, (streamBash (some c) run).getLast? = some t ∧ isTerminal t = true) ∧
    (streamBash (some c) run).countP (fun e => isTerminal e) = 1 ∧
    (∀ code signal killed, run.outcome = .exited code signal killed →
      (streamBash (some c) run).getLast? = some (.exit code signal killed) ∧
      (bashExec (some c) run).exitCode = code) := by
  obtain ⟨chunks, outcome⟩ := run
  have hMzero :
      (chunks.map (fun p : Bool × String =>
        if p.1 then StreamEvent.stderrChunk p.2
        else StreamEvent.stdoutChunk p.2)).countP (fun e => isTerminal e) = 0 := by
    refine List.countP_eq_zero.mpr ?_
    intro a ha
    obtain ⟨p, _, rfl⟩ := List.mem_map.mp ha
    by_cases hb : p.1 <;> simp [hb, isTerminal]
  cases outcome with
  | exited code signal killed =>
      refine ⟨by simp [streamBash, hc], ?_, ?_, ?_⟩
      · refine ⟨.exit code signal killed, ?_, rfl⟩
        simp only [streamBash, hc, if_neg, ite_false]
        exact getLast?_cons_append_singleton _ _ _ _
      · simp only [streamBash, hc, ite_false, List.countP_cons, List.countP_append,
          hMzero]
        cases killed <;> simp [isTerminal, List.countP_cons]
      · intro code' signal' killed' hout
        obtain ⟨rfl, rfl, rfl⟩ : code = code' ∧ signal = signal' ∧ killed = killed' := by
          cases hout; exact ⟨rfl, rfl, rfl⟩
        constructor
        · simp only [streamBash, hc, ite_false]
          exact getLast?_cons_append_singleton _ _ _ _
        · simp [bashExec, hc]
  | spawnFailed msg =>
      refine ⟨by simp [streamBash, hc], ?_, ?_, ?_⟩
      · refine ⟨.errorEv (spawnErrorText msg c), ?_, rfl⟩
        have h0 : streamBash (some c) ⟨chunks, .spawnFailed msg⟩ =
            StreamEvent.start c ::
              ((chunks.map (fun p : Bool × String =>
                if p.1 then StreamEvent.stderrChunk p.2
                else StreamEvent.stdoutChunk p.2)) ++
               ([] ++ [StreamEvent.errorEv (spawnErrorText msg c)])) := by
          simp [streamBash, hc]
        rw [h0]
        exact getLast?_cons_append_singleton _ _ _ _
      · simp only [streamBash, hc, ite_false, List.countP_cons, List.countP_append,
          hMzero]
        simp [isTerminal, List.countP_cons]
      · intro code' signal' killed' hout
        exact absurd hout (by simp)

/-- Witness for `streamBash_ordering` at `exit 0`. -/
theorem streamBash_ordering_witness :
    (streamBash (some "exit 0") ⟨[], .exited (some 0) none false⟩).head? =
      some (.start "exit 0") ∧
    (∃ t, (streamBash (some "exit 0") ⟨[], .exited (some 0) none false⟩).getLast? =
      some t ∧ isTerminal t = true) ∧
    (streamBash (some "exit 0") ⟨[], .exited (some 0) none false⟩).countP
      (fun e => isTerminal e) = 1 ∧
    (∀ code signal killed,
      (⟨[], .exited (some 0) none false⟩ : ProcRun).outcome = .exited code signal killed →
      (streamBash (some "exit 0") ⟨[], .exited (some 0) none false⟩).getLast? =
        some (.exit code signal killed) ∧
      (bashExec (some "exit 0") ⟨[], .exited (some 0) none false⟩).exitCode = code) :=
  streamBash_ordering "exit 0" (by decide) ⟨[], .exited (some 0) none false⟩

/-! ### C3 — session tracking and cleanup -/

/-- C3 — counterexample: the handler appends the skill name even when
the tool result reports an error (first conjunct refutes "appended only
after a successful execute"), one drain leaves the tracker untouched
(second conjunct refutes "draining clears the tracker"), and a second
drain on the result again issues stop+remove runtime calls (third
conjunct refutes "a second drain performs zero runtime calls"). -/
theorem session_tracker_cex :
    (handleUseSkill [] "canvas-design" ⟨true, "Status: FAILED"⟩).1 =
      ["canvas-design"] ∧
    (cleanup ["canvas-design"]).2 = ["canvas-design"] ∧
    (cleanup ((cleanup ["canvas-design"]).2)).1 =
      [.stop "canvas-design", .remove "canvas-design"] :=
  ⟨rfl, rfl, rfl⟩

theorem foldl_handleUseSkill (r : ToolResult) :
    ∀ (skills tr : List String), (tr ++ skills).Nodup →
      (∀ s ∈ skills, s ≠ "") →
      skills.foldl (fun t s => (handleUseSkill t s r).1) tr = tr ++ skills := by
  intro skills
  induction skills with
  | nil => intro tr _ _; simp
  | cons s rest ih =>
      intro tr hnd hne
      have hs : s ≠ "" := hne s (by simp)
      have hnotin : s ∉ tr := by
        intro hmem
        have hdisj := (List.nodup_append.mp hnd).2.2
        exact hdisj hmem (by simp)
      have hstep : (handleUseSkill tr s r).1 = tr ++ [s] := by
        simp [handleUseSkill, hs, trackAdd, hnotin]
      have hassoc : (tr ++ [s]) ++ rest = tr ++ s :: rest := by simp
      simp only [List.foldl_cons, hstep]
      rw [ih (tr ++ [s]) (by rw [hassoc]; exact hnd)
        (fun t ht => hne t (by simp [ht])), hassoc]

theorem cleanup_eq (tr : List String) :
    cleanup tr =
      (tr.flatMap (fun s => [CleanupCall.stop s, CleanupCall.remove s]), tr) := by
  unfold cleanup
  split
  · rename_i h
    subst h
    rfl
  · rfl

/-- C3 (amended) — the tracker is appended after every use-skill
invocation with a non-empty skill name, whether or not the execution
succeeded; after N such invocations across N distinct identities the
tracker holds exactly those identities, one drain issues stop+remove for
exactly those N identities but does not clear the tracker, a second
drain issues the same stop+remove calls again, and a drain on an empty
session performs zero runtime calls. -/
theorem session_cleanup_amended (skills : List String) (r : ToolResult)
    (hnodup : skills.Nodup) (hne : ∀ s ∈ skills, s ≠ "") :
    skills.foldl (fun t s => (handleUseSkill t s r).1) [] = skills ∧
    (cleanup skills).1 =
      skills.flatMap (fun s => [CleanupCall.stop s, CleanupCall.remove s]) ∧
    (cleanup skills).2 = skills ∧
    (cleanup ((cleanup skills).2)).1 =
      skills.flatMap (fun s => [CleanupCall.stop s, CleanupCall.remove s]) ∧
    cleanup [] = ([], []) := by
  refine ⟨?_, ?_, ?_, ?_, rfl⟩
  · simpa using foldl_handleUseSkill r skills [] (by simpa using hnodup) hne
  · rw [cleanup_eq]
  · rw [cleanup_eq]
  · rw [cleanup_eq, cleanup_eq]

/-- Witness for `session_cleanup_amended` on two distinct skills. -/
theorem session_cleanup_amended_witness :
    (["canvas-design", "slack-gif-creator"] : List String).foldl
      (fun t s => (handleUseSkill t s ⟨false, "Status: SUCCESS"⟩).1) [] =
        ["canvas-design", "slack-gif-creator"] ∧
    (cleanup ["canvas-design", "slack-gif-creator"]).1 =
      (["canvas-design", "slack-gif-creator"] : List String).flatMap
        (fun s => [CleanupCall.stop s, CleanupCall.remove s]) ∧
    (cleanup ["canvas-design", "slack-gif-creator"]).2 =
      ["canvas-design", "slack-gif-creator"] ∧
    (cleanup ((cleanup ["canvas-design", "slack-gif-creator"]).2)).1 =
      (["canvas-design", "slack-gif-creator"] : List String).flatMap
        (fun s => [CleanupCall.stop s, CleanupCall.remove s]) ∧
    cleanup [] = ([], []) :=
  session_cleanup_amended ["canvas-design", "slack-gif-creator"]
    ⟨false, "Status: SUCCESS"⟩ (by decide) (by decide)

end OpenSkill
